import Mathlib

/-!
Verification of the qnetdes core (agents.py, connections.py).

Shallow embedding conventions:
- Python float arithmetic on delays is modelled by exact rationals.
- The opaque program payload is a type parameter P; a device is its
  delay-relevant contract apply(program, qubits) -> delay.
- Python dicts keyed by the two agent names become per-agent fields with
  string-keyed Option-valued lookup helpers; a lookup of a key that is not
  one of the two names models a Python KeyError by returning none.  The two
  agent names of a connection are assumed distinct, as the spec uniqueness
  invariant requires (with duplicate names the Python dict literals would
  collapse to a single binding).
- queue.Queue is a FIFO list: put appends at the tail, get takes the head;
  a get on an empty queue blocks in Python and is modelled as none.
- A Python expression list(set(xs)) has arbitrary element order; it is
  modelled by the representative xs.dedup, and set-level statements are
  phrased via List.toFinset, which ignores the order.
- Mutating methods return (Option PyError, post-state): some e means the
  Python call raised exception e, with the side effects performed before
  the raise kept in the post-state, exactly as a propagating Python
  exception leaves the mutated objects behind.
-/

/-- 10 ps photon pulse length: connections.py line 8, 10 * 10 ** -12. -/
def pulse_length_default : ℚ := 10 / 10 ^ 12

/-- Speed of light in km/s: connections.py line 9, 2.998 * 10 ** 5. -/
def signal_speed : ℚ := 299800

/-- Default fiber length: connections.py line 10, 0.0. -/
def fiber_length_default : ℚ := 0

/-- Python exceptions that the embedded operations can raise. -/
inductive PyError where
  | ownershipError
  | invalidDeviceType
  | typeError
  | attributeError
  | keyError
deriving DecidableEq

/-- External device capability: apply(program, qubits) -> delay
(the delay-relevant part of the contract in spec section 6). -/
structure Device (P : Type) where
  apply : P → List ℕ → ℚ

/-- Agent state: agents.py lines 5-25 (the threading machinery itself is
out of scope; the connection registries hold the registered peer names,
standing for the dict keys of qconnections and cconnections). -/
structure Agent (P : Type) where
  name : String
  time : ℚ
  qconnections : List String
  cconnections : List String
  qubits : List ℕ
  program : P
  target_devices : List (Device P)
  source_devices : List (Device P)

/-- Agent.__init__ with an explicit name argument (agents.py lines 6-25;
the default name derived from the class name is not modelled, callers
always pass a name). -/
def Agent.init {P : Type} (program : P) (qubits : List ℕ) (name : String) : Agent P :=
  { name := name, time := 0, qconnections := [], cconnections := [],
    qubits := qubits, program := program, target_devices := [], source_devices := [] }

/-- Representative of the Python value list(set(xs ++ ys)), as used in
agents.py line 84 and connections.py line 99 (qubits + agent.qubits). -/
def pySetUnion (xs ys : List ℕ) : List ℕ := (xs ++ ys).dedup

/-- Representative of the Python value list(set(xs) - set(ys)), as used in
agents.py line 71. -/
def pySetDiff (xs ys : List ℕ) : List ℕ := (xs.filter fun x => decide (x ∉ ys)).dedup

/-- Python dict insertion restricted to the key set: d[k] = v adds k as a
key when absent. -/
def dictInsert (ks : List String) (k : String) : List String :=
  if k ∈ ks then ks else ks ++ [k]

/-- One entry of a quantum queue: connections.py line 87 puts the tuple
(qubits, non_source_devices, scaled_source_delay, source_time), with
non_source_devices the dict holding the transit and target chains. -/
structure QEntry (P : Type) where
  qubits : List ℕ
  transit_devices : List (Device P)
  target_devices : List (Device P)
  scaled_source_delay : ℚ
  source_time : ℚ

/-- Quantum connection state: connections.py lines 12-53.  Each
name-keyed dict of the source becomes a pair of fields, one per agent. -/
structure QConnect (P : Type) where
  nameOne : String
  nameTwo : String
  sourceDevicesOne : List (Device P)
  sourceDevicesTwo : List (Device P)
  targetDevicesOne : List (Device P)
  targetDevicesTwo : List (Device P)
  transitDevicesOne : List (Device P)
  transitDevicesTwo : List (Device P)
  programOne : P
  programTwo : P
  queueOne : List (QEntry P)
  queueTwo : List (QEntry P)

/-- Lookup in the dict self.source_devices (connections.py lines 24-27). -/
def QConnect.sourceDevicesFor {P : Type} (c : QConnect P) (n : String) :
    Option (List (Device P)) :=
  if n = c.nameOne then some c.sourceDevicesOne
  else if n = c.nameTwo then some c.sourceDevicesTwo
  else none

/-- Lookup in the dict self.target_devices (connections.py lines 29-32). -/
def QConnect.targetDevicesFor {P : Type} (c : QConnect P) (n : String) :
    Option (List (Device P)) :=
  if n = c.nameOne then some c.targetDevicesOne
  else if n = c.nameTwo then some c.targetDevicesTwo
  else none

/-- Lookup in the dict self.transit_devices (connections.py lines 35-38). -/
def QConnect.transitDevicesFor {P : Type} (c : QConnect P) (n : String) :
    Option (List (Device P)) :=
  if n = c.nameOne then some c.transitDevicesOne
  else if n = c.nameTwo then some c.transitDevicesTwo
  else none

/-- Lookup of self.agents[n].program (connections.py lines 44-47, 75, 101;
the program reference is taken from the agent registered at construction). -/
def QConnect.programFor {P : Type} (c : QConnect P) (n : String) : Option P :=
  if n = c.nameOne then some c.programOne
  else if n = c.nameTwo then some c.programTwo
  else none

/-- Lookup in the dict self.queues (connections.py lines 50-53). -/
def QConnect.queueFor {P : Type} (c : QConnect P) (n : String) :
    Option (List (QEntry P)) :=
  if n = c.nameOne then some c.queueOne
  else if n = c.nameTwo then some c.queueTwo
  else none

/-- self.queues[n].put(e): append at the tail of the FIFO queue keyed n. -/
def QConnect.enqueueFor {P : Type} (c : QConnect P) (n : String) (e : QEntry P) :
    Option (QConnect P) :=
  if n = c.nameOne then some { c with queueOne := c.queueOne ++ [e] }
  else if n = c.nameTwo then some { c with queueTwo := c.queueTwo ++ [e] }
  else none

/-- Drop the head of the FIFO queue keyed n (the effect on the queue of a
completed Queue.get). -/
def QConnect.dequeueFor {P : Type} (c : QConnect P) (n : String) : QConnect P :=
  if n = c.nameOne then { c with queueOne := c.queueOne.tail }
  else if n = c.nameTwo then { c with queueTwo := c.queueTwo.tail }
  else c

/-- QConnect.__init__ (connections.py lines 13-53): snapshots both agent
device lists and programs, stores the transit chain once per direction
(the given order for agent_one as source, its reverse for agent_two as
source, line 37 transit_devices[::-1]), creates one empty FIFO queue per
direction, and registers the connection key on both agents (lines 41-42).
Returns the connection together with the two updated agents. -/
def QConnect.init {P : Type} (a1 a2 : Agent P) (transit_devices : List (Device P)) :
    QConnect P × Agent P × Agent P :=
  ({ nameOne := a1.name, nameTwo := a2.name,
     sourceDevicesOne := a1.source_devices, sourceDevicesTwo := a2.source_devices,
     targetDevicesOne := a1.target_devices, targetDevicesTwo := a2.target_devices,
     transitDevicesOne := transit_devices, transitDevicesTwo := transit_devices.reverse,
     programOne := a1.program, programTwo := a2.program,
     queueOne := [], queueTwo := [] },
   { a1 with qconnections := dictInsert a1.qconnections a2.name },
   { a2 with qconnections := dictInsert a2.qconnections a1.name })

/-- Source-side delay of a transmission (connections.py lines 76-82): the
default pulse length when the source chain is empty, otherwise the sum of
the per-device delays in chain order. -/
def sourceDelayOf {P : Type} (devs : List (Device P)) (prog : P) (qubits : List ℕ) : ℚ :=
  if devs.isEmpty then pulse_length_default
  else (devs.map fun d => d.apply prog qubits).sum

/-- QConnect.put (connections.py lines 55-88): resolves the source, transit
and target chains and the sending program, computes the source delay,
scales it by the number of qubits (line 85), enqueues the entry on the
queue keyed by the target name, and returns the scaled source delay. -/
def QConnect.put {P : Type} (c : QConnect P) (source target : String)
    (qubits : List ℕ) (source_time : ℚ) : Option (ℚ × QConnect P) :=
  match c.sourceDevicesFor source, c.transitDevicesFor source,
      c.targetDevicesFor target, c.programFor source with
  | some source_devices, some transit_devices, some target_devices, some program =>
    let scaled_source_delay := sourceDelayOf source_devices program qubits * (qubits.length : ℚ)
    (c.enqueueFor target
        ⟨qubits, transit_devices, target_devices, scaled_source_delay, source_time⟩).map
      fun c2 => (scaled_source_delay, c2)
  | _, _, _, _ => none

/-- Travel delay of a dequeued entry (connections.py lines 106-114): the
default fiber delay when the transit chain is empty (line 109; an empty
target chain adds 0, line 111), plus the per-device delays summed over the
transit chain followed by the target chain, in that order
(itertools.chain(transit_devices, target_devices), line 113). -/
def travelDelayOf {P : Type} (e : QEntry P) (prog : P) : ℚ :=
  (if e.transit_devices.isEmpty then fiber_length_default / signal_speed else 0)
  + ((e.transit_devices ++ e.target_devices).map fun d => d.apply prog e.qubits).sum

/-- QConnect.get (connections.py lines 90-117), called with an agent
object as the source intends: dequeues the oldest entry for agent.name
(blocking when the queue is empty, modelled as none), merges the payload
into the agent qubit list by set union (line 99), computes the travel
delay, scales it by the payload length and adds the stored source delay
(line 116), and returns (qubits, scaled_delay, source_time) together with
the mutated agent and connection. -/
def QConnect.get {P : Type} (c : QConnect P) (agent : Agent P) :
    Option (List ℕ × ℚ × ℚ × Agent P × QConnect P) :=
  match c.queueFor agent.name, c.programFor agent.name with
  | some (e :: _), some prog =>
    some (e.qubits,
      travelDelayOf e prog * (e.qubits.length : ℚ) + e.scaled_source_delay,
      e.source_time,
      { agent with qubits := pySetUnion e.qubits agent.qubits },
      c.dequeueFor agent.name)
  | _, _ => none

/-- Agent.add_device (agents.py lines 27-38): appends to the source or
target device list according to device_type, and raises on any other
device_type with the agent unchanged. -/
def Agent.add_device {P : Type} (a : Agent P) (device_type : String) (device : Device P) :
    Option PyError × Agent P :=
  if device_type = "source" then
    (none, { a with source_devices := a.source_devices ++ [device] })
  else if device_type = "target" then
    (none, { a with target_devices := a.target_devices ++ [device] })
  else
    (some PyError.invalidDeviceType, a)

/-- Agent.qsend (agents.py lines 58-73).  Line 67 rejects a payload that
is not a subset of the owned qubits; line 71 then removes the payload from
the owned list; line 72 looks the target up in the qconnections registry
(KeyError when absent).  Line 73 then calls connection.put(self.name,
target, qubits) with three arguments, but QConnect.put (connections.py
line 55) declares four required parameters (source, target, qubits,
source_time): the call raises TypeError for the missing source_time
argument before the body of put runs, so nothing is ever enqueued and the
exception propagates with the owned list already shrunk.  (Line 73 also
discards the value put would return.) -/
def Agent.qsend {P : Type} (a : Agent P) (c : QConnect P) (target : String)
    (qubits : List ℕ) : Option PyError × Agent P × QConnect P :=
  if ¬ ∀ x ∈ qubits, x ∈ a.qubits then
    (some PyError.ownershipError, a, c)
  else
    let a2 : Agent P := { a with qubits := pySetDiff a.qubits qubits }
    if target ∈ a2.qconnections then
      (some PyError.typeError, a2, c)
    else
      (some PyError.keyError, a2, c)

/-- Agent.qrecv (agents.py lines 75-86).  Line 82 looks the source up in
the qconnections registry (KeyError when absent).  Line 83 then calls
connection.get(self.name), passing the agent NAME, a string, where
QConnect.get (connections.py line 90) expects the agent object: the body
of get immediately reads agent.name (line 98), and a str has no attribute
name, so the call raises AttributeError before touching the queue.  (Even
with the right argument, get returns a 3-tuple that line 83 unpacks into
two variables, a ValueError.)  The agent and the connection are left
exactly as they were. -/
def Agent.qrecv {P : Type} (a : Agent P) (c : QConnect P) (source : String) :
    Option PyError × Agent P × QConnect P × Option (List ℕ) :=
  if source ∈ a.qconnections then
    (some PyError.attributeError, a, c, none)
  else
    (some PyError.keyError, a, c, none)

/-- One entry of a classical queue: connections.py line 156 puts the tuple
(cbits, csource_delay). -/
structure CEntry where
  cbits : List ℕ
  csource_delay : ℚ
deriving DecidableEq

/-- Classical connection state: connections.py lines 119-146. -/
structure CConnect where
  nameOne : String
  nameTwo : String
  length : ℚ
  queueOne : List CEntry
  queueTwo : List CEntry
deriving DecidableEq

/-- Lookup in the dict self.queues of a classical connection
(connections.py lines 143-146). -/
def CConnect.queueFor (cc : CConnect) (n : String) : Option (List CEntry) :=
  if n = cc.nameOne then some cc.queueOne
  else if n = cc.nameTwo then some cc.queueTwo
  else none

/-- self.queues[n].put(e) on a classical connection. -/
def CConnect.enqueueFor (cc : CConnect) (n : String) (e : CEntry) : Option CConnect :=
  if n = cc.nameOne then some { cc with queueOne := cc.queueOne ++ [e] }
  else if n = cc.nameTwo then some { cc with queueTwo := cc.queueTwo ++ [e] }
  else none

/-- Drop the head of the classical FIFO queue keyed n. -/
def CConnect.dequeueFor (cc : CConnect) (n : String) : CConnect :=
  if n = cc.nameOne then { cc with queueOne := cc.queueOne.tail }
  else if n = cc.nameTwo then { cc with queueTwo := cc.queueTwo.tail }
  else cc

/-- CConnect.__init__ (connections.py lines 120-146): stores the link
length, creates one empty FIFO queue per direction and registers the
connection key on both agents (lines 130-131). -/
def CConnect.init {P : Type} (a1 a2 : Agent P) (length : ℚ) :
    CConnect × Agent P × Agent P :=
  ({ nameOne := a1.name, nameTwo := a2.name, length := length,
     queueOne := [], queueTwo := [] },
   { a1 with cconnections := dictInsert a1.cconnections a2.name },
   { a2 with cconnections := dictInsert a2.cconnections a1.name })

/-- CConnect.put (connections.py lines 148-157): the source delay is
pulse_length_default * 8 * sys.getsizeof(cbits); sys.getsizeof reports
the CPython in-memory byte size of the list object, an implementation
detail of the interpreter, so it is kept abstract as a parameter. -/
def CConnect.put (cc : CConnect) (getsizeof : List ℕ → ℚ) (target : String)
    (cbits : List ℕ) : Option (ℚ × CConnect) :=
  let csource_delay := pulse_length_default * 8 * getsizeof cbits
  (cc.enqueueFor target ⟨cbits, csource_delay⟩).map fun cc2 => (csource_delay, cc2)

/-- CConnect.get (connections.py lines 159-170), keyed directly by the
agent name string: dequeues, computes the travel delay length/signal_speed,
scales it by len(cbits) and adds the stored source delay, and returns
(cbits, scaled_delay). -/
def CConnect.get (cc : CConnect) (agent : String) : Option (List ℕ × ℚ × CConnect) :=
  match cc.queueFor agent with
  | some (e :: _) =>
    some (e.cbits, cc.length / signal_speed * (e.cbits.length : ℚ) + e.csource_delay,
      cc.dequeueFor agent)
  | _ => none

/-- Agent.csend (agents.py lines 88-95): looks the target up in the
cconnections registry and calls connection.put(target, cbits), whose
return value is discarded; the agent itself is not modified. -/
def Agent.csend {P : Type} (a : Agent P) (cc : CConnect) (getsizeof : List ℕ → ℚ)
    (target : String) (cbits : List ℕ) : Option PyError × Agent P × CConnect :=
  if target ∈ a.cconnections then
    match cc.put getsizeof target cbits with
    | some (_, cc2) => (none, a, cc2)
    | none => (some PyError.keyError, a, cc)
  else
    (some PyError.keyError, a, cc)

/-- Agent.crecv (agents.py lines 97-105): looks the source up in the
cconnections registry and evaluates cbits = connection.get(self.name).
CConnect.get returns the PAIR (cbits, scaled_delay); line 104 binds that
whole pair to the single variable cbits and line 105 returns it.  The
delay is never unpacked and self.time is never advanced.  A get on an
empty queue blocks, modelled as a none value. -/
def Agent.crecv {P : Type} (a : Agent P) (cc : CConnect) (source : String) :
    Option PyError × Agent P × CConnect × Option (List ℕ × ℚ) :=
  if source ∈ a.cconnections then
    match cc.get a.name with
    | some (cbits, scaled_delay, cc2) => (none, a, cc2, some (cbits, scaled_delay))
    | none => (none, a, cc, none)
  else
    (some PyError.keyError, a, cc, none)

/-! ### Shared helper lemmas and concrete fixtures -/

theorem fiber_over_speed_eq_zero : fiber_length_default / signal_speed = 0 := by
  rw [fiber_length_default]
  exact zero_div _

theorem queueFor_one {P : Type} (c : QConnect P) :
    c.queueFor c.nameOne = some c.queueOne := by
  simp [QConnect.queueFor]

theorem queueFor_two {P : Type} (c : QConnect P) (hne : c.nameOne ≠ c.nameTwo) :
    c.queueFor c.nameTwo = some c.queueTwo := by
  have h21 : c.nameTwo ≠ c.nameOne := fun h => hne h.symm
  simp [QConnect.queueFor, h21]

/-- The connection state after a put with agent one as source: the entry
built by connections.py lines 70-87 appended to the queue keyed by agent
two. -/
def afterPutTwo {P : Type} (c : QConnect P) (qs : List ℕ) (t : ℚ) : QConnect P :=
  { c with queueTwo := c.queueTwo ++
    [⟨qs, c.transitDevicesOne, c.targetDevicesTwo,
      sourceDelayOf c.sourceDevicesOne c.programOne qs * (qs.length : ℚ), t⟩] }

/-- The connection state after a put with agent two as source. -/
def afterPutOne {P : Type} (c : QConnect P) (qs : List ℕ) (t : ℚ) : QConnect P :=
  { c with queueOne := c.queueOne ++
    [⟨qs, c.transitDevicesTwo, c.targetDevicesOne,
      sourceDelayOf c.sourceDevicesTwo c.programTwo qs * (qs.length : ℚ), t⟩] }

theorem put_spec_one_two {P : Type} (c : QConnect P) (s tg : String)
    (hs : s = c.nameOne) (ht : tg = c.nameTwo) (hne : c.nameOne ≠ c.nameTwo)
    (qs : List ℕ) (t : ℚ) :
    c.put s tg qs t =
      some (sourceDelayOf c.sourceDevicesOne c.programOne qs * (qs.length : ℚ),
        afterPutTwo c qs t) := by
  subst hs ht
  have h21 : c.nameTwo ≠ c.nameOne := fun h => hne h.symm
  simp [QConnect.put, QConnect.sourceDevicesFor, QConnect.transitDevicesFor,
    QConnect.targetDevicesFor, QConnect.programFor, QConnect.enqueueFor,
    afterPutTwo, h21]

theorem put_spec_two_one {P : Type} (c : QConnect P) (s tg : String)
    (hs : s = c.nameTwo) (ht : tg = c.nameOne) (hne : c.nameOne ≠ c.nameTwo)
    (qs : List ℕ) (t : ℚ) :
    c.put s tg qs t =
      some (sourceDelayOf c.sourceDevicesTwo c.programTwo qs * (qs.length : ℚ),
        afterPutOne c qs t) := by
  subst hs ht
  have h21 : c.nameTwo ≠ c.nameOne := fun h => hne h.symm
  simp [QConnect.put, QConnect.sourceDevicesFor, QConnect.transitDevicesFor,
    QConnect.targetDevicesFor, QConnect.programFor, QConnect.enqueueFor,
    afterPutOne, h21]

theorem get_spec_one {P : Type} (c : QConnect P) (a : Agent P) (ha : a.name = c.nameOne)
    (e : QEntry P) (rest : List (QEntry P)) (hq : c.queueOne = e :: rest) :
    c.get a = some (e.qubits,
      travelDelayOf e c.programOne * (e.qubits.length : ℚ) + e.scaled_source_delay,
      e.source_time, { a with qubits := pySetUnion e.qubits a.qubits },
      { c with queueOne := rest }) := by
  simp [QConnect.get, QConnect.queueFor, QConnect.programFor, QConnect.dequeueFor, ha, hq]

theorem get_spec_two {P : Type} (c : QConnect P) (a : Agent P) (ha : a.name = c.nameTwo)
    (hne : c.nameOne ≠ c.nameTwo) (e : QEntry P) (rest : List (QEntry P))
    (hq : c.queueTwo = e :: rest) :
    c.get a = some (e.qubits,
      travelDelayOf e c.programTwo * (e.qubits.length : ℚ) + e.scaled_source_delay,
      e.source_time, { a with qubits := pySetUnion e.qubits a.qubits },
      { c with queueTwo := rest }) := by
  have h21 : c.nameTwo ≠ c.nameOne := fun h => hne h.symm
  simp [QConnect.get, QConnect.queueFor, QConnect.programFor, QConnect.dequeueFor,
    ha, hq, h21]

theorem get_blocked_one {P : Type} (c : QConnect P) (a : Agent P) (ha : a.name = c.nameOne)
    (hq : c.queueOne = []) : c.get a = none := by
  simp [QConnect.get, QConnect.queueFor, ha, hq]

theorem get_blocked_two {P : Type} (c : QConnect P) (a : Agent P) (ha : a.name = c.nameTwo)
    (hne : c.nameOne ≠ c.nameTwo) (hq : c.queueTwo = []) : c.get a = none := by
  have h21 : c.nameTwo ≠ c.nameOne := fun h => hne h.symm
  simp [QConnect.get, QConnect.queueFor, ha, hq, h21]

def aliceName : String := "Alice"

def bobName : String := "Bob"

def srcRole : String := "source"

def tgtRole : String := "target"

def otherRole : String := "banana"

def alice0 : Agent Unit := Agent.init () [0, 1] aliceName

def bob0 : Agent Unit := Agent.init () [] bobName

def qworld : QConnect Unit × Agent Unit × Agent Unit := QConnect.init alice0 bob0 []

def qc0 : QConnect Unit := qworld.1

def alice1 : Agent Unit := qworld.2.1

def bob1 : Agent Unit := qworld.2.2

def devW : Device Unit := ⟨fun _ _ => 1⟩

def devW2 : Device Unit := ⟨fun _ _ => 2⟩

/-! ### Claim theorems -/

/-- Claim C5: when the payload is not a subset of the owned qubits, qsend
raises the ownership error first and performs no mutation at all: the
returned post-state carries the agent and the connection exactly as they
were, so the owned set, the clock and both direction queues are untouched. -/
theorem qsend_ownership_error_state_unchanged {P : Type} (a : Agent P) (c : QConnect P)
    (target : String) (qs : List ℕ) (h : ¬ ∀ x ∈ qs, x ∈ a.qubits) :
    a.qsend c target qs = (some PyError.ownershipError, a, c) := by
  simp [Agent.qsend, h]

/-- Witness for C5: an agent owning no qubits cannot send qubit 3; the
state is returned unchanged. -/
theorem qsend_ownership_error_state_unchanged_witness :
    bob0.qsend qc0 aliceName [3] = (some PyError.ownershipError, bob0, qc0) :=
  qsend_ownership_error_state_unchanged bob0 qc0 aliceName [3] (by decide)

/-- Claim C9: add_device appends to the source device list for role
source, appends to the target device list for role target, and raises on
any other role leaving both device lists (indeed the whole agent)
unchanged. -/
theorem add_device_roles {P : Type} (a : Agent P) (d : Device P) :
    (Agent.add_device a srcRole d =
      (none, { a with source_devices := a.source_devices ++ [d] })) ∧
    (Agent.add_device a tgtRole d =
      (none, { a with target_devices := a.target_devices ++ [d] })) ∧
    (∀ role : String, role ≠ srcRole → role ≠ tgtRole →
      Agent.add_device a role d = (some PyError.invalidDeviceType, a)) := by
  refine ⟨rfl, rfl, ?_⟩
  intro role h1 h2
  have h1a : role ≠ "source" := h1
  have h2a : role ≠ "target" := h2
  unfold Agent.add_device
  rw [if_neg h1a, if_neg h2a]

/-- Witness for C9: attaching a device under the role banana raises and
leaves the agent unchanged. -/
theorem add_device_roles_witness :
    Agent.add_device alice0 otherRole devW = (some PyError.invalidDeviceType, alice0) :=
  (add_device_roles alice0 devW).2.2 otherRole (by decide) (by decide)

/-- Claim C10: a qsend call never changes any field of the sending agent
other than (possibly) the owned qubit list — the clock, program, device
lists and both connection registries are returned unchanged, the
connection state is returned unchanged, and in particular no delay is
ever added to the sender clock.  This holds for every call (the code
never completes the intended success path, see claim C1, yet the frame
condition holds on every path). -/
theorem qsend_frame {P : Type} (a : Agent P) (c : QConnect P) (target : String)
    (qs : List ℕ) :
    ((a.qsend c target qs).2.1).time = a.time ∧
    ((a.qsend c target qs).2.1).program = a.program ∧
    ((a.qsend c target qs).2.1).source_devices = a.source_devices ∧
    ((a.qsend c target qs).2.1).target_devices = a.target_devices ∧
    ((a.qsend c target qs).2.1).qconnections = a.qconnections ∧
    ((a.qsend c target qs).2.1).cconnections = a.cconnections ∧
    ((a.qsend c target qs).2.1).name = a.name ∧
    (a.qsend c target qs).2.2 = c := by
  refine ⟨?_, ?_, ?_, ?_, ?_, ?_, ?_, ?_⟩ <;>
    · unfold Agent.qsend
      split
      · rfl
      · dsimp only
        split <;> rfl

/-- Claim C1 fails on the code: with the ownership check satisfied, qsend
removes the payload from the owned list and then raises TypeError (line 73
calls QConnect.put with three arguments where four are required), so the
send neither enqueues anything nor receives back a source-side delay.  The
connection is returned exactly as it was. -/
theorem qsend_valid_send_raises_type_error :
    (∀ x ∈ ([0] : List ℕ), x ∈ alice1.qubits) ∧
    alice1.qsend qc0 bobName [0] =
      (some PyError.typeError, { alice1 with qubits := [1] }, qc0) := by
  constructor
  · decide
  · rfl

/-- Claim C2 fails on the code: even with an entry pending in the queue
addressed to Bob, Bob.qrecv raises AttributeError (line 83 passes the
agent name string to QConnect.get, which dereferences agent.name on it)
and returns no payload; the agent and the connection are left unchanged,
so no payload is merged and no delay is added to the clock. -/
theorem qrecv_raises_attribute_error_with_pending_entry :
    ∃ d : ℚ, ∃ c1 : QConnect Unit,
      qc0.put aliceName bobName [0] 0 = some (d, c1) ∧
      (∃ e rest, c1.queueFor bob1.name = some (e :: rest)) ∧
      bob1.qrecv c1 aliceName = (some PyError.attributeError, bob1, c1, none) := by
  exact ⟨_, _, rfl, ⟨_, _, rfl⟩, rfl⟩

def cworld : CConnect × Agent Unit × Agent Unit := CConnect.init alice0 bob0 1

def cc0 : CConnect := cworld.1

def aliceC : Agent Unit := cworld.2.1

def bobC : Agent Unit := cworld.2.2

/-- A concrete stand-in for sys.getsizeof in the classical fixtures. -/
def sizeofW : List ℕ → ℚ := fun _ => 80

/-- Claim C6 fails on the code: over a classical connection of length 1,
after Alice sends the bits [1, 0], Bob.crecv returns the whole
(cbits, delay) pair produced by CConnect.get as its value and leaves the
receiving agent untouched — in particular Bob's clock stays at 0 instead
of advancing by the total delay.  (The delay inside the pair is the
length/signal_speed travel term scaled by len(cbits) plus the stored
source-side term pulse_length_default * 8 * getsizeof(cbits).) -/
theorem crecv_returns_pair_without_clock_advance :
    ∃ cc1 cc2 : CConnect, ∃ v : List ℕ × ℚ,
      aliceC.csend cc0 sizeofW bobName [1, 0] = (none, aliceC, cc1) ∧
      bobC.crecv cc1 aliceName = (none, bobC, cc2, some v) ∧
      v = ([1, 0], cc0.length / signal_speed * 2 + pulse_length_default * 8 * 80) ∧
      bobC.time = 0 := by
  refine ⟨_, _, _, rfl, rfl, ?_, rfl⟩
  rfl

/-- Claim C3: on a get whose queue holds an entry e with n tokens, the
total delay returned equals the stored source-side scaled delay plus the
sum of per-device delays over the transit chain followed by the target
chain, times n (the empty-transit default contributes
fiber_length_default / signal_speed = 0); when both chains are empty the
travel component is exactly fiber_length_default / signal_speed times n;
and a put whose source chain is empty returns exactly
pulse_length_default times the token count. -/
theorem qconnect_delay_additivity {P : Type} (c : QConnect P) (a : Agent P)
    (e : QEntry P) (rest : List (QEntry P)) (prog : P)
    (hq : c.queueFor a.name = some (e :: rest))
    (hp : c.programFor a.name = some prog) :
    (∃ a2 c2, c.get a = some (e.qubits,
        e.scaled_source_delay
          + ((e.transit_devices ++ e.target_devices).map fun d =>
              d.apply prog e.qubits).sum * (e.qubits.length : ℚ),
        e.source_time, a2, c2)) ∧
    (e.transit_devices = [] → e.target_devices = [] →
      ∃ a2 c2, c.get a = some (e.qubits,
        e.scaled_source_delay + fiber_length_default / signal_speed * (e.qubits.length : ℚ),
        e.source_time, a2, c2)) ∧
    (∀ (source target : String) (qs : List ℕ) (t : ℚ)
        (tds tgds : List (Device P)) (prog2 : P),
      c.sourceDevicesFor source = some [] →
      c.transitDevicesFor source = some tds →
      c.targetDevicesFor target = some tgds →
      c.programFor source = some prog2 →
      ∃ c2, c.put source target qs t =
        some (pulse_length_default * (qs.length : ℚ), c2)) := by
  have hget : c.get a = some (e.qubits,
      travelDelayOf e prog * (e.qubits.length : ℚ) + e.scaled_source_delay,
      e.source_time, { a with qubits := pySetUnion e.qubits a.qubits },
      c.dequeueFor a.name) := by
    simp [QConnect.get, hq, hp]
  have htravel : travelDelayOf e prog =
      ((e.transit_devices ++ e.target_devices).map fun d => d.apply prog e.qubits).sum := by
    unfold travelDelayOf
    rw [fiber_over_speed_eq_zero]
    split <;> ring
  refine ⟨?_, ?_, ?_⟩
  · refine ⟨{ a with qubits := pySetUnion e.qubits a.qubits }, c.dequeueFor a.name, ?_⟩
    rw [hget]
    have hd : travelDelayOf e prog * (e.qubits.length : ℚ) + e.scaled_source_delay
        = e.scaled_source_delay
          + ((e.transit_devices ++ e.target_devices).map fun d =>
              d.apply prog e.qubits).sum * (e.qubits.length : ℚ) := by
      rw [htravel]; ring
    rw [hd]
  · intro h1 h2
    refine ⟨{ a with qubits := pySetUnion e.qubits a.qubits }, c.dequeueFor a.name, ?_⟩
    rw [hget]
    have hd : travelDelayOf e prog * (e.qubits.length : ℚ) + e.scaled_source_delay
        = e.scaled_source_delay
          + fiber_length_default / signal_speed * (e.qubits.length : ℚ) := by
      rw [htravel, h1, h2]
      simp [fiber_over_speed_eq_zero]
    rw [hd]
  · intro source target qs t tds tgds prog2 hsd htd htg hp2
    have hpulse : sourceDelayOf ([] : List (Device P)) prog2 qs = pulse_length_default := rfl
    by_cases h1 : target = c.nameOne
    · refine ⟨{ c with queueOne := c.queueOne ++
        [⟨qs, tds, tgds, pulse_length_default * (qs.length : ℚ), t⟩] }, ?_⟩
      simp only [QConnect.put, hsd, htd, htg, hp2, hpulse]
      simp [QConnect.enqueueFor, h1]
    · by_cases h2 : target = c.nameTwo
      · refine ⟨{ c with queueTwo := c.queueTwo ++
          [⟨qs, tds, tgds, pulse_length_default * (qs.length : ℚ), t⟩] }, ?_⟩
        simp only [QConnect.put, hsd, htd, htg, hp2, hpulse]
        simp [QConnect.enqueueFor, h1, h2]
        rw [← h2]
        exact h1
      · exfalso
        unfold QConnect.targetDevicesFor at htg
        rw [if_neg h1, if_neg h2] at htg
        exact Option.noConfusion htg

def entryW : QEntry Unit := ⟨[5], [], [], 7, 3⟩

def bobW : Agent Unit := Agent.init () [] bobName

def cw : QConnect Unit :=
  { nameOne := aliceName, nameTwo := bobName,
    sourceDevicesOne := [], sourceDevicesTwo := [],
    targetDevicesOne := [], targetDevicesTwo := [],
    transitDevicesOne := [], transitDevicesTwo := [],
    programOne := (), programTwo := (),
    queueOne := [], queueTwo := [entryW] }

/-- Witness for C3: on a concrete connection holding one pending entry,
the get returns the stored source delay plus the device-chain sum scaled
by the token count. -/
theorem qconnect_delay_additivity_witness :
    ∃ a2 c2, cw.get bobW = some (entryW.qubits,
      entryW.scaled_source_delay
        + ((entryW.transit_devices ++ entryW.target_devices).map fun d =>
            d.apply () entryW.qubits).sum * (entryW.qubits.length : ℚ),
      entryW.source_time, a2, c2) :=
  (qconnect_delay_additivity cw bobW entryW [] () rfl rfl).1

/-- Claim C7: the merge performed by get uses set semantics: the receiving
agent owned set becomes the set union of the payload and the previous
owned set, the merged list never holds duplicates, and when the payload is
already owned the owned set is unchanged in contents and size. -/
theorem qconnect_get_merge_idempotent {P : Type} (c : QConnect P) (a : Agent P)
    (e : QEntry P) (rest : List (QEntry P)) (prog : P)
    (hq : c.queueFor a.name = some (e :: rest))
    (hp : c.programFor a.name = some prog) :
    (∃ d st c2, c.get a =
        some (e.qubits, d, st, { a with qubits := pySetUnion e.qubits a.qubits }, c2)) ∧
    (pySetUnion e.qubits a.qubits).toFinset = e.qubits.toFinset ∪ a.qubits.toFinset ∧
    (pySetUnion e.qubits a.qubits).Nodup ∧
    (e.qubits ⊆ a.qubits →
      (pySetUnion e.qubits a.qubits).toFinset = a.qubits.toFinset ∧
      (pySetUnion e.qubits a.qubits).toFinset.card = a.qubits.toFinset.card) := by
  have hunion : (pySetUnion e.qubits a.qubits).toFinset
      = e.qubits.toFinset ∪ a.qubits.toFinset := by
    ext x
    simp [pySetUnion]
  refine ⟨⟨travelDelayOf e prog * (e.qubits.length : ℚ) + e.scaled_source_delay,
    e.source_time, c.dequeueFor a.name, by simp [QConnect.get, hq, hp]⟩,
    hunion, List.nodup_dedup _, ?_⟩
  intro hsub
  have hsubF : e.qubits.toFinset ⊆ a.qubits.toFinset := by
    intro x hx
    rw [List.mem_toFinset] at hx ⊢
    exact hsub hx
  have : (pySetUnion e.qubits a.qubits).toFinset = a.qubits.toFinset := by
    rw [hunion]
    exact Finset.union_eq_right.mpr hsubF
  exact ⟨this, by rw [this]⟩

def gwAgent : Agent Unit := Agent.init () [5] bobName

/-- Witness for C7: re-delivering qubit 5 to an agent that already owns it
leaves the owned set unchanged in contents and size. -/
theorem qconnect_get_merge_idempotent_witness :
    (pySetUnion entryW.qubits gwAgent.qubits).toFinset = gwAgent.qubits.toFinset ∧
    (pySetUnion entryW.qubits gwAgent.qubits).toFinset.card
      = gwAgent.qubits.toFinset.card :=
  (qconnect_get_merge_idempotent cw gwAgent entryW [] () rfl rfl).2.2.2
    (fun _ hx => hx)

/-- Claim C4: per direction the queue is strict FIFO — after two puts A
to B on a previously empty direction, two successive gets by B return the
first payload and then the second — and a get on a direction with an
empty queue blocks (returns no value) until a put has occurred there. -/
theorem qconnect_fifo_order {P : Type} (c : QConnect P) (A B : String) (bob : Agent P)
    (P1 P2 : List ℕ) (t1 t2 d1 d2 : ℚ) (c1 c2 : QConnect P)
    (hbob : bob.name = B)
    (hAB : (A = c.nameOne ∧ B = c.nameTwo) ∨ (A = c.nameTwo ∧ B = c.nameOne))
    (hne : c.nameOne ≠ c.nameTwo)
    (hqB : c.queueFor B = some [])
    (h1 : c.put A B P1 t1 = some (d1, c1))
    (h2 : c1.put A B P2 t2 = some (d2, c2)) :
    c.get bob = none ∧
    ∃ dl1 st1 bob2 c3, c2.get bob = some (P1, dl1, st1, bob2, c3) ∧
      ∃ dl2 st2 bob3 c4, c3.get bob = some (P2, dl2, st2, bob3, c4) := by
  rcases hAB with ⟨rfl, rfl⟩ | ⟨rfl, rfl⟩
  · rw [queueFor_two c hne] at hqB
    have hQ : c.queueTwo = [] := Option.some.inj hqB
    rw [put_spec_one_two c _ _ rfl rfl hne P1 t1] at h1
    simp only [Option.some.injEq, Prod.mk.injEq] at h1
    obtain ⟨hd1, hc1⟩ := h1
    subst hc1
    rw [put_spec_one_two (afterPutTwo c P1 t1) c.nameOne c.nameTwo rfl rfl hne P2 t2] at h2
    simp only [Option.some.injEq, Prod.mk.injEq] at h2
    obtain ⟨hd2, hc2⟩ := h2
    subst hc2
    refine ⟨get_blocked_two c bob hbob hne hQ, ?_⟩
    refine ⟨_, _, _, _,
      get_spec_two (afterPutTwo (afterPutTwo c P1 t1) P2 t2) bob hbob hne
        ⟨P1, c.transitDevicesOne, c.targetDevicesTwo,
          sourceDelayOf c.sourceDevicesOne c.programOne P1 * (P1.length : ℚ), t1⟩
        [⟨P2, c.transitDevicesOne, c.targetDevicesTwo,
          sourceDelayOf c.sourceDevicesOne c.programOne P2 * (P2.length : ℚ), t2⟩]
        (by simp [afterPutTwo, hQ]), ?_⟩
    exact ⟨_, _, _, _,
      get_spec_two { afterPutTwo (afterPutTwo c P1 t1) P2 t2 with queueTwo :=
          [⟨P2, c.transitDevicesOne, c.targetDevicesTwo,
            sourceDelayOf c.sourceDevicesOne c.programOne P2 * (P2.length : ℚ), t2⟩] }
        bob hbob hne
        ⟨P2, c.transitDevicesOne, c.targetDevicesTwo,
          sourceDelayOf c.sourceDevicesOne c.programOne P2 * (P2.length : ℚ), t2⟩
        [] rfl⟩
  · rw [queueFor_one c] at hqB
    have hQ : c.queueOne = [] := Option.some.inj hqB
    rw [put_spec_two_one c _ _ rfl rfl hne P1 t1] at h1
    simp only [Option.some.injEq, Prod.mk.injEq] at h1
    obtain ⟨hd1, hc1⟩ := h1
    subst hc1
    rw [put_spec_two_one (afterPutOne c P1 t1) c.nameTwo c.nameOne rfl rfl hne P2 t2] at h2
    simp only [Option.some.injEq, Prod.mk.injEq] at h2
    obtain ⟨hd2, hc2⟩ := h2
    subst hc2
    refine ⟨get_blocked_one c bob hbob hQ, ?_⟩
    refine ⟨_, _, _, _,
      get_spec_one (afterPutOne (afterPutOne c P1 t1) P2 t2) bob hbob
        ⟨P1, c.transitDevicesTwo, c.targetDevicesOne,
          sourceDelayOf c.sourceDevicesTwo c.programTwo P1 * (P1.length : ℚ), t1⟩
        [⟨P2, c.transitDevicesTwo, c.targetDevicesOne,
          sourceDelayOf c.sourceDevicesTwo c.programTwo P2 * (P2.length : ℚ), t2⟩]
        (by simp [afterPutOne, hQ]), ?_⟩
    exact ⟨_, _, _, _,
      get_spec_one { afterPutOne (afterPutOne c P1 t1) P2 t2 with queueOne :=
          [⟨P2, c.transitDevicesTwo, c.targetDevicesOne,
            sourceDelayOf c.sourceDevicesTwo c.programTwo P2 * (P2.length : ℚ), t2⟩] }
        bob hbob
        ⟨P2, c.transitDevicesTwo, c.targetDevicesOne,
          sourceDelayOf c.sourceDevicesTwo c.programTwo P2 * (P2.length : ℚ), t2⟩
        [] rfl⟩

def put1 : Option (ℚ × QConnect Unit) := qc0.put aliceName bobName [1] 0

def d1F : ℚ := (put1.getD (0, qc0)).1

def c1F : QConnect Unit := (put1.getD (0, qc0)).2

def put2 : Option (ℚ × QConnect Unit) := c1F.put aliceName bobName [2] 0

def d2F : ℚ := (put2.getD (0, qc0)).1

def c2F : QConnect Unit := (put2.getD (0, qc0)).2

/-- Witness for C4: on the concrete Alice-Bob connection, after sending
the batch [1] and then the batch [2], Bob's two successive gets return
[1] and then [2]. -/
theorem qconnect_fifo_order_witness :
    ∃ dl1 st1 bob2 c3, c2F.get bob1 = some ([1], dl1, st1, bob2, c3) ∧
      ∃ dl2 st2 bob3 c4, c3.get bob1 = some ([2], dl2, st2, bob3, c4) :=
  (qconnect_fifo_order qc0 aliceName bobName bob1 [1] [2] 0 0 d1F d2F c1F c2F
    rfl (Or.inl ⟨rfl, rfl⟩) (by decide) rfl rfl rfl).2

/-- Claim C8: both directional transit chains are built at construction
time — the chain keyed by agent one (the source of the orientation the
transit list is given in) equals the list D, the chain keyed by agent two
equals the exact reverse of D — a put enqueues exactly the chain keyed by
its source (D for agent one as source, D.reverse for agent two as
source), and at get time the devices are folded in
transit-chain-then-target-chain order. -/
theorem qconnect_transit_reversal {P : Type} (a1 a2 : Agent P) (D : List (Device P))
    (hne : a1.name ≠ a2.name) :
    ((QConnect.init a1 a2 D).1.transitDevicesFor a1.name = some D) ∧
    ((QConnect.init a1 a2 D).1.transitDevicesFor a2.name = some D.reverse) ∧
    (∀ (qs : List ℕ) (t d : ℚ) (c2 : QConnect P),
        (QConnect.init a1 a2 D).1.put a1.name a2.name qs t = some (d, c2) →
        ∃ sd, c2.queueTwo = [⟨qs, D, a2.target_devices, sd, t⟩]) ∧
    (∀ (qs : List ℕ) (t d : ℚ) (c2 : QConnect P),
        (QConnect.init a1 a2 D).1.put a2.name a1.name qs t = some (d, c2) →
        ∃ sd, c2.queueOne = [⟨qs, D.reverse, a1.target_devices, sd, t⟩]) ∧
    (∀ (e : QEntry P) (prog : P),
        travelDelayOf e prog =
          (if e.transit_devices.isEmpty then fiber_length_default / signal_speed else 0)
          + ((e.transit_devices.map fun dv => dv.apply prog e.qubits).sum
             + (e.target_devices.map fun dv => dv.apply prog e.qubits).sum)) := by
  have h21 : a2.name ≠ a1.name := fun h => hne h.symm
  refine ⟨?_, ?_, ?_, ?_, ?_⟩
  · simp [QConnect.init, QConnect.transitDevicesFor]
  · simp [QConnect.init, QConnect.transitDevicesFor, h21]
  · intro qs t d c2 h
    rw [put_spec_one_two (QConnect.init a1 a2 D).1 a1.name a2.name rfl rfl hne qs t] at h
    simp only [Option.some.injEq, Prod.mk.injEq] at h
    obtain ⟨hd, hc⟩ := h
    subst hc
    exact ⟨sourceDelayOf a1.source_devices a1.program qs * (qs.length : ℚ),
      by simp [afterPutTwo, QConnect.init]⟩
  · intro qs t d c2 h
    rw [put_spec_two_one (QConnect.init a1 a2 D).1 a2.name a1.name rfl rfl hne qs t] at h
    simp only [Option.some.injEq, Prod.mk.injEq] at h
    obtain ⟨hd, hc⟩ := h
    subst hc
    exact ⟨sourceDelayOf a2.source_devices a2.program qs * (qs.length : ℚ),
      by simp [afterPutOne, QConnect.init]⟩
  · intro e prog
    unfold travelDelayOf
    rw [List.map_append, List.sum_append]

/-- Witness for C8: with the concrete transit list [devW, devW2], the
chain keyed by Bob (agent two as source) is the exact reverse. -/
theorem qconnect_transit_reversal_witness :
    (QConnect.init alice0 bob0 [devW, devW2]).1.transitDevicesFor bob0.name
      = some (List.reverse [devW, devW2]) :=
  (qconnect_transit_reversal alice0 bob0 [devW, devW2] (by decide)).2.1
